import Mathlib

/-!
Verification of the `Job` orchestrator (`src/bus/core/job.py`).

The Python `Job` class composes a dependency graph of tasks, seeds and
advances execution through readiness checks, maintains a run log, and
emits lifecycle events.  This file gives a shallow embedding of the
class: Python dicts become ordered association lists, datetimes become
`Nat` timestamps, exceptions become an explicit error component in each
operation's result, and the external collaborators (backend, event
sink, the asynchronous task machinery) are recorded as an effect trace.
-/

namespace Dagobah

/-! ## Ordered association lists (Python `dict` semantics) -/

/-- Lookup of the first binding of a key, mirroring Python `d[k]` / `d.get(k)`. -/
def alookup {α : Type} (m : List (String × α)) (k : String) : Option α :=
  match m with
  | [] => none
  | (k', v) :: rest => if k' = k then some v else alookup rest k

/-- Update mirroring Python `d[k] = v`: replaces the first binding in place,
appends a new binding at the end when the key is absent. -/
def aset {α : Type} (m : List (String × α)) (k : String) (v : α) :
    List (String × α) :=
  match m with
  | [] => [(k, v)]
  | (k', v') :: rest => if k' = k then (k, v) :: rest else (k', v') :: aset rest k v

theorem alookup_aset_self {α : Type} (m : List (String × α)) (k : String) (v : α) :
    alookup (aset m k v) k = some v := by
  induction m with
  | nil => simp [aset, alookup]
  | cons hd tl ih =>
      obtain ⟨a, b⟩ := hd
      by_cases h : a = k
      · simp [aset, h, alookup]
      · simp [aset, h, alookup, ih]

theorem alookup_aset_ne {α : Type} (m : List (String × α)) (k k' : String) (v : α)
    (h : k' ≠ k) : alookup (aset m k v) k' = alookup m k' := by
  have h' : ¬ k = k' := fun hk => h hk.symm
  induction m with
  | nil => simp [aset, alookup, h']
  | cons hd tl ih =>
      obtain ⟨a, b⟩ := hd
      by_cases hk : a = k
      · subst hk
        simp [aset, alookup, h']
      · by_cases hk' : a = k'
        · simp [aset, hk, alookup, hk', h]
        · simp [aset, hk, alookup, hk', ih]

theorem isSome_alookup_aset {α : Type} (m : List (String × α)) (k k' : String) (v : α) :
    (alookup (aset m k v) k').isSome = ((alookup m k').isSome ∨ k' = k : Bool) := by
  by_cases h : k' = k
  · subst h; simp [alookup_aset_self]
  · simp [alookup_aset_ne m k k' v h, h]

theorem alookup_mem {α : Type} (m : List (String × α)) (k : String) (v : α)
    (h : alookup m k = some v) : (k, v) ∈ m := by
  induction m with
  | nil => simp [alookup] at h
  | cons hd tl ih =>
      obtain ⟨a, b⟩ := hd
      by_cases hk : a = k
      · subst hk
        simp [alookup] at h
        subst h
        exact List.mem_cons_self _ _
      · simp [alookup, hk] at h
        exact List.mem_cons_of_mem _ (ih h)

/-! ## Graph

The `dag` library the Job inherits from is not under `src/`; the graph
container is modelled from the spec (section 4.1): an adjacency mapping
from a node to the set of its direct downstream nodes. -/

/-- Adjacency mapping: node name to its direct downstream node names. -/
abbrev Graph := List (String × List String)

/-- Node identifiers of a graph (its key set). -/
def gkeys (g : Graph) : List String := g.map Prod.fst

/-- Whether some edge points at `n`. -/
def hasIncoming (g : Graph) (n : String) : Bool :=
  g.any (fun kv => kv.2.contains n)

/-- Modelled from the spec: roots of a graph, the nodes with no incoming
edge (spec section 4.1, "compute roots"); mirrors the library's
`ind_nodes`. -/
def indNodes (g : Graph) : List String :=
  (gkeys g).filter (fun n => !hasIncoming g n)

/-- Modelled from the spec: direct downstream nodes of a node per a given
graph, the library's `downstream`; `none` plays the role of the KeyError
raised on a node that is not in the graph. -/
def downstreamOf (g : Graph) (n : String) : Option (List String) :=
  alookup g n

/-- Kahn elimination with fuel: repeatedly strip the current roots.  A
graph is acyclic exactly when this empties it. -/
def kahnAux : Nat → Graph → Bool
  | _, [] => true
  | 0, _ => false
  | fuel+1, g =>
      let roots := indNodes g
      if roots.isEmpty then false
      else kahnAux fuel (g.filter (fun kv => !roots.contains kv.1))

/-- Modelled from the spec: cycle detection over a graph copy (spec
sections 4.1 and 8: "validate rejects any graph containing a cycle and
accepts any DAG"). -/
def isAcyclic (g : Graph) : Bool := kahnAux g.length g

/-- Modelled from the spec: `validate` returns a validity flag together
with a human-readable reason on failure. -/
def validate (g : Graph) : Bool × String :=
  if isAcyclic g then (true, "valid") else (false, "invalid graph: cycle detected")

/-! ## Statuses and guards

`JobState` (`components.py`) is not under `src/`; the guard derivation is
modelled from the spec's guard table (section 4.2). -/

inductive JobStatus
  | waiting
  | running
  | failed
  deriving DecidableEq, Repr

/-- Modelled from the spec: graph-structure edits are permitted only while
`waiting`. -/
def allow_change_graph : JobStatus → Bool
  | .waiting => true
  | _ => false

/-- Modelled from the spec: starting is permitted only from `waiting`. -/
def allow_start : JobStatus → Bool
  | .waiting => true
  | _ => false

/-! ## Run-log entries and the run log -/

/-- A run-log entry.  Python stores an open dict; the fields the Job ever
reads or seeds are `success`, `start_time` and `command`, each optional
(absent = `none`). -/
structure LogEntry where
  success : Option Bool := none
  start_time : Option Nat := none
  command : Option String := none
  deriving DecidableEq, Repr

/-- The run-log record allocated by `start` (`job_id`/`name`/`parent_id`
identify the job and are dropped; `log_id`, `start_time`, `tasks` and the
`last_retry_time` stamped by `retry` are kept). -/
structure RunLog where
  log_id : Nat := 0
  start_time : Nat := 0
  tasks : List (String × LogEntry) := []
  last_retry_time : Option Nat := none
  deriving DecidableEq, Repr

/-- The Job's `run_log` attribute: Python `None` before any run, the run
log during/after a run, and the bare `{}` that successful completion
assigns (a dict with no `tasks` key, distinct from a run log with an
empty task table). -/
inductive RunLogField
  | null
  | emptyDict
  | log (l : RunLog)
  deriving DecidableEq, Repr

/-! ## Tasks

The `Task` class is not under `src/`; its contract is modelled from the
spec (section 3): identity, configuration, execution markers, reset
before each run, asynchronous start. -/

structure Task where
  name : String
  command : String
  soft_timeout : Option Nat := none
  hard_timeout : Option Nat := none
  hostname : Option String := none
  started_at : Option Nat := none
  completed_at : Option Nat := none
  deriving DecidableEq, Repr

/-- Modelled from the spec: reset clears prior start/completion markers. -/
def Task.reset (t : Task) : Task :=
  { t with started_at := none, completed_at := none }

/-- Modelled from the spec: starting a task sets its start marker; the
asynchronous dispatch itself is recorded in the effect trace. -/
def Task.start (t : Task) : Task :=
  { t with started_at := some 1 }

/-! ## External world: effects, environment, errors -/

/-- Observable interactions with the collaborators (backend, event sink,
task machinery).  Fallible calls carry whether the call succeeded. -/
inductive Effect
  | taskStart (task : String)
  | taskTerminate (task : String)
  | taskKill (task : String)
  | commitLog (ok : Bool)
  | commitJob
  | emit (event : String) (ok : Bool)
  | lockAcquire
  | lockRelease
  deriving DecidableEq, Repr

/-- The environment: the clock, the backend's fresh log id, and fault
switches for the fallible backend/event-sink calls. -/
structure Env where
  now : Nat := 0
  new_log_id : Nat := 0
  commit_log_fails : Bool := false
  emit_fails : Bool := false
  deriving DecidableEq, Repr

/-- `backend.commit_log` as a fallible call. -/
def commitLogCall (env : Env) : Except String Unit :=
  if env.commit_log_fails then .error "backend failure" else .ok ()

/-- `event_handler.emit` as a fallible call. -/
def emitCall (env : Env) : Except String Unit :=
  if env.emit_fails then .error "event sink failure" else .ok ()

/-- Python exceptions escaping an operation: `DagobahError`, and the
`KeyError`/`TypeError` of raw dict access. -/
inductive JobError
  | dagobah (msg : String)
  | keyError (msg : String)
  | typeError (msg : String)
  | backendError (msg : String)
  deriving DecidableEq, Repr

/-! ## The Job -/

structure Job where
  status : JobStatus := .waiting
  graph : Graph := []
  tasks : List (String × Task) := []
  run_log : RunLogField := .null
  snapshot : Option Graph := none
  cron_schedule : Option String := none
  cron_iter : Option (List Nat) := none
  next_run : Option Nat := none
  notes : Option String := none
  has_event_handler : Bool := true
  deriving DecidableEq, Repr

/-- Result of one Job operation: the escaped exception if any, the job
state as left behind (exceptions leave earlier mutations in place, as in
Python), and the trace of collaborator interactions. -/
structure StepResult where
  err : Option JobError := none
  job : Job
  effects : List Effect := []
  deriving DecidableEq, Repr

/-! ## Job operations (translated from `job.py`) -/

/-- `Job.initialize_snapshot`: deep-copy the graph, validate it, raise a
`DagobahError` with the validation reason on failure, install the copy
on success.  A pre-existing snapshot is only warned about and then
overwritten. -/
def Job.initialize_snapshot (j : Job) : Option JobError × Job :=
  let snapshot_to_validate := j.graph
  let v := validate snapshot_to_validate
  if v.1 then (none, { j with snapshot := some snapshot_to_validate })
  else (some (.dagobah v.2), j)

/-- `Job.destroy_snapshot`. -/
def Job.destroy_snapshot (j : Job) : Job :=
  { j with snapshot := none }

/-- `Job._dependencies`: the keys of the snapshot whose adjacency set
contains `task_name` (the direct upstream nodes). -/
def Job._dependencies (snapshot : Graph) (task_name : String) : List String :=
  (snapshot.filter (fun kv => kv.2.contains task_name)).map Prod.fst

/-- `Job._put_task_in_run_log`: writes the seed entry
`\x7bstart_time, command\x7d` for the task; reading the task's command
raises a KeyError for an unknown task, and the raw `run_log` access
raises when `run_log` is not a run-log dict. -/
def Job._put_task_in_run_log (j : Job) (env : Env) (task_name : String) :
    Option JobError × Job :=
  match alookup j.tasks task_name with
  | none => (some (.keyError task_name), j)
  | some t =>
      match j.run_log with
      | .log l =>
          let data : LogEntry := { start_time := some env.now, command := some t.command }
          (none, { j with run_log := .log { l with tasks := aset l.tasks task_name data } })
      | .null => (some (.typeError "run_log is None"), j)
      | .emptyDict => (some (.keyError "tasks"), j)

/-- The upstream-satisfaction test of `Job._start_if_ready`:
`run_log.tasks.get(dep, \x7b\x7d).get(success, False) == True`. -/
def succTrue (tasks : List (String × LogEntry)) (u : String) : Bool :=
  ((alookup tasks u).bind (fun e => e.success)).getD false

/-- Readiness of a node: every direct upstream node per the snapshot has
a run-log entry whose success field is exactly `True`. -/
def ready (snapshot : Graph) (tasks : List (String × LogEntry)) (d : String) : Bool :=
  (Job._dependencies snapshot d).all (succTrue tasks)

/-- `Job._start_if_ready`: fetch the task (KeyError when absent), check
every snapshot dependency for a successful run-log entry, and when all
are satisfied seed the run-log entry and start the task. -/
def Job._start_if_ready (j : Job) (env : Env) (task_name : String) :
    Option JobError × Job × List Effect :=
  match alookup j.tasks task_name with
  | none => (some (.keyError task_name), j, [])
  | some t =>
      match j.snapshot with
      | none => (some (.typeError "snapshot is None"), j, [])
      | some s =>
          match j.run_log with
          | .log l =>
              if ready s l.tasks task_name then
                match j._put_task_in_run_log env task_name with
                | (some e, j') => (some e, j', [])
                | (none, j') =>
                    (none, { j' with tasks := aset j'.tasks task_name (Task.start t) },
                     [.taskStart task_name])
              else (none, j, [])
          | .null => (some (.typeError "run_log is None"), j, [])
          | .emptyDict => (some (.keyError "tasks"), j, [])

/-- The loop `for node in downstream: self._start_if_ready(node)`; an
escaping exception stops the loop as in Python. -/
def Job.propagate (j : Job) (env : Env) : List String → Option JobError × Job × List Effect
  | [] => (none, j, [])
  | n :: rest =>
      match j._start_if_ready env n with
      | (some e, j', effs) => (some e, j', effs)
      | (none, j', effs) =>
          let r := Job.propagate j' env rest
          (r.1, r.2.1, effs ++ r.2.2)

/-- The recurring idiom `try: acquire_lock; commit_log except: log
finally: release_lock` of `_complete_task`; the bare `except` swallows a
backend failure, the `finally` releases the lock on both paths. -/
def lockedCommit (env : Env) : List Effect :=
  match commitLogCall env with
  | .ok _ => [.lockAcquire, .commitLog true, .lockRelease]
  | .error _ => [.lockAcquire, .commitLog false, .lockRelease]

/-- The recurring idiom `try: acquire_lock; if event_handler: emit(...)
except: log finally: release_lock`; a failing emit is swallowed and the
lock is released on both paths. -/
def lockedEmit (env : Env) (has_handler : Bool) (event : String) : List Effect :=
  if has_handler then
    match emitCall env with
    | .ok _ => [.lockAcquire, .emit event true, .lockRelease]
    | .error _ => [.lockAcquire, .emit event false, .lockRelease]
  else [.lockAcquire, .lockRelease]

/-- `Job._is_complete`: every task that has a run-log entry also carries
a result; `none` stands for the exception of the raw `run_log` access. -/
def Job._is_complete (j : Job) : Option Bool :=
  match j.run_log with
  | .log l => some (l.tasks.all (fun kv => kv.2.success.isSome))
  | _ => none

/-- `Job._on_completion`: returns unless the status is `running` and the
run is complete; otherwise scans for a recorded failure (status becomes
`failed`, `job_failed` emitted under lock) or finishes cleanly (status
back to `waiting`, run log cleared to the bare `\x7b\x7d`, `job_complete`
emitted under lock), and in both outcomes destroys the snapshot. -/
def Job._on_completion (j : Job) (env : Env) : StepResult :=
  if j.status ≠ .running then { err := none, job := j }
  else
    match j.run_log with
    | .null => { err := some (.typeError "run_log is None"), job := j }
    | .emptyDict => { err := some (.keyError "tasks"), job := j }
    | .log l =>
        if !(l.tasks.all (fun kv => kv.2.success.isSome)) then { err := none, job := j }
        else
          let anyFailed := l.tasks.any (fun kv => kv.2.success.getD false = false)
          let step1 : Job × List Effect :=
            if anyFailed then
              let j' := { j with status := JobStatus.failed }
              (j', lockedEmit env j'.has_event_handler "job_failed")
            else (j, [])
          let j1 := step1.1
          let step2 : Job × List Effect :=
            if j1.status ≠ .failed then
              let j' := { j1 with status := JobStatus.waiting, run_log := RunLogField.emptyDict }
              (j', lockedEmit env j'.has_event_handler "job_complete")
            else (j1, [])
          { err := none, job := step2.1.destroy_snapshot, effects := step1.2 ++ step2.2 }

/-- Step 1 of `_complete_task`:
`self.run_log[tasks][task_name] = kwargs`, overwriting the entry with
the payload. -/
def completeMid (j : Job) (l : RunLog) (task_name : String) (kwargs : LogEntry) : Job :=
  { j with run_log := RunLogField.log { l with tasks := aset l.tasks task_name kwargs } }

/-- `Job._complete_task`: overwrite the task's run-log entry with the
payload, run readiness propagation over the direct downstream nodes of
the snapshot (the library falls back to the live graph when the snapshot
is `None`), commit the run log under lock, emit `task_failed` under lock
when the payload records `success == False`, then evaluate overall
completion. -/
def Job._complete_task (j : Job) (env : Env) (task_name : String) (kwargs : LogEntry) :
    StepResult :=
  match j.run_log with
  | .null => { err := some (.typeError "run_log is None"), job := j }
  | .emptyDict => { err := some (.keyError "tasks"), job := j }
  | .log l =>
      let j1 := completeMid j l task_name kwargs
      match downstreamOf (j1.snapshot.getD j1.graph) task_name with
      | none => { err := some (.keyError task_name), job := j1 }
      | some ds =>
          let p := j1.propagate env ds
          match p.1 with
          | some e => { err := some e, job := p.2.1, effects := p.2.2 }
          | none =>
              let commit_effs := lockedCommit env
              if kwargs.success = some false then
                match alookup p.2.1.tasks task_name with
                | none =>
                    { err := some (.keyError task_name), job := p.2.1,
                      effects := p.2.2 ++ commit_effs }
                | some _ =>
                    let emit_effs := lockedEmit env p.2.1.has_event_handler "task_failed"
                    let r := p.2.1._on_completion env
                    { err := r.err, job := r.job,
                      effects := p.2.2 ++ commit_effs ++ emit_effs ++ r.effects }
              else
                let r := p.2.1._on_completion env
                { err := r.err, job := r.job,
                  effects := p.2.2 ++ commit_effs ++ r.effects }

/-- The seeding loop shared by `start` and `retry`:
`self._put_task_in_run_log(task_name); self.tasks[task_name].start()`. -/
def Job.seedAndStart (j : Job) (env : Env) :
    List String → Option JobError × Job × List Effect
  | [] => (none, j, [])
  | n :: rest =>
      match alookup j.tasks n with
      | none => (some (.keyError n), j, [])
      | some t =>
          match j._put_task_in_run_log env n with
          | (some e, j') => (some e, j', [])
          | (none, j') =>
              let j'' := { j' with tasks := aset j'.tasks n (Task.start t) }
              let r := Job.seedAndStart j'' env rest
              (r.1, r.2.1, Effect.taskStart n :: r.2.2)

/-- The cron-advance step of `Job.start`: when a schedule is active and
the current time has passed the recorded next fire time, advance the
iterator; manual invocations (no schedule, or before the fire time)
leave it alone.  Returns the new `(next_run, cron_iter)` pair. -/
def startCron (env : Env) (j : Job) : Option Nat × Option (List Nat) :=
  match j.cron_iter with
  | some (t :: rest) =>
      if env.now > j.next_run.getD 0 then (some t, some rest)
      else (j.next_run, j.cron_iter)
  | _ => (j.next_run, j.cron_iter)

/-- `Job.start`: guard check, snapshot initialization (aborts on a
cycle), cron advance when a schedule fired, fresh run log, status to
`running`, reset of every task, seeding and starting of the snapshot's
root nodes, and a bare `_commit_run_log` whose failure propagates. -/
def Job.start (j : Job) (env : Env) : StepResult :=
  if !(allow_start j.status) then
    { err := some (.dagobah "job cannot be started in its current state; it is probably already running"),
      job := j }
  else
    match j.initialize_snapshot with
    | (some e, j1) => { err := some e, job := j1 }
    | (none, j1) =>
        let j2 : Job := { j1 with next_run := (startCron env j1).1,
                                  cron_iter := (startCron env j1).2 }
        let fresh_log : RunLog := { log_id := env.new_log_id, start_time := env.now, tasks := [] }
        let j3 : Job := { j2 with run_log := RunLogField.log fresh_log }
        let j4 : Job := { j3 with status := JobStatus.running }
        let j5 : Job := { j4 with tasks := j4.tasks.map (fun kv => (kv.1, Task.reset kv.2)) }
        match j5.snapshot with
        | none => { err := some (.typeError "snapshot is None"), job := j5 }
        | some s =>
            let r := j5.seedAndStart env (indNodes s)
            match r.1 with
            | some e => { err := some e, job := r.2.1, effects := r.2.2 }
            | none =>
                match commitLogCall env with
                | .ok _ => { err := none, job := r.2.1, effects := r.2.2 ++ [.commitLog true] }
                | .error m =>
                    { err := some (.backendError m), job := r.2.1,
                      effects := r.2.2 ++ [.commitLog false] }

/-- The failed-task scan of `Job.retry`:
`log.get(success, True) == False`. -/
def failedNames (l : RunLog) : List String :=
  (l.tasks.filter (fun kv => kv.2.success.getD true = false)).map Prod.fst

/-- `Job.retry`: snapshot initialization first (it mutates the snapshot
field even when the retry then fails), scan for failed entries, raise
`no failed tasks to retry` when there are none, else status to `running`,
retry timestamp, re-seed and restart each failed task, and a bare
`_commit_run_log`.  No `RunState` guard is consulted. -/
def Job.retry (j : Job) (env : Env) : StepResult :=
  match j.initialize_snapshot with
  | (some e, j1) => { err := some e, job := j1 }
  | (none, j1) =>
      match j1.run_log with
      | .null => { err := some (.typeError "run_log is None"), job := j1 }
      | .emptyDict => { err := some (.keyError "tasks"), job := j1 }
      | .log l =>
          if failedNames l = [] then
            { err := some (.dagobah "no failed tasks to retry"), job := j1 }
          else
            let j2 := { j1 with status := JobStatus.running,
                                run_log := RunLogField.log { l with last_retry_time := some env.now } }
            let r := j2.seedAndStart env (failedNames l)
            match r.1 with
            | some e => { err := some e, job := r.2.1, effects := r.2.2 }
            | none =>
                match commitLogCall env with
                | .ok _ => { err := none, job := r.2.1, effects := r.2.2 ++ [.commitLog true] }
                | .error m =>
                    { err := some (.backendError m), job := r.2.1,
                      effects := r.2.2 ++ [.commitLog false] }

/-- `Job.terminate_all`: for each task with a start marker and no
completion marker, issue a terminate request; nothing else changes. -/
def Job.terminate_all (j : Job) : StepResult :=
  { err := none, job := j,
    effects := (j.tasks.filter
        (fun kv => kv.2.started_at.isSome && kv.2.completed_at.isNone)).map
      (fun kv => .taskTerminate kv.1) }

/-- `Job.kill_all`: as `terminate_all` with a kill request. -/
def Job.kill_all (j : Job) : StepResult :=
  { err := none, job := j,
    effects := (j.tasks.filter
        (fun kv => kv.2.started_at.isSome && kv.2.completed_at.isNone)).map
      (fun kv => .taskKill kv.1) }

/-- `Job.add_task`: guard check, name defaulting to the command, task
registration (overwriting any existing binding of the name), then the
graph-node addition, which signals an error on a duplicate node
(modelled from the spec: graph nodes are a set of unique identifiers),
then the commit. -/
def Job.add_task (j : Job) (command : String) (name? : Option String) : StepResult :=
  if !(allow_change_graph j.status) then
    { err := some (.dagobah "the job graph is immutable in its current state"), job := j }
  else
    let name := name?.getD command
    let new_task : Task := { name := name, command := command }
    let j1 := { j with tasks := aset j.tasks name new_task }
    if (gkeys j1.graph).contains name then
      { err := some (.keyError name), job := j1 }
    else
      { err := none, job := { j1 with graph := j1.graph ++ [(name, [])] },
        effects := [.commitJob] }

/-- The run-log entry of a task in the job's current run log. -/
def entryOf (j : Job) (n : String) : Option LogEntry :=
  match j.run_log with
  | .log l => alookup l.tasks n
  | _ => none

/-- The task names carried by `taskStart` effects, in order. -/
def startedNames (effs : List Effect) : List String :=
  effs.filterMap (fun e => match e with | .taskStart n => some n | _ => none)

/-- The event names carried by `emit` effects, in order. -/
def emittedEvents (effs : List Effect) : List String :=
  effs.filterMap (fun e => match e with | .emit n _ => some n | _ => none)

/-! ## Helper lemmas about the effect observers -/

theorem startedNames_append (xs ys : List Effect) :
    startedNames (xs ++ ys) = startedNames xs ++ startedNames ys := by
  simp [startedNames, List.filterMap_append]

theorem mem_startedNames (effs : List Effect) (n : String) :
    n ∈ startedNames effs ↔ Effect.taskStart n ∈ effs := by
  constructor
  · intro h
    rcases List.mem_filterMap.mp h with ⟨e, he, hmap⟩
    cases e <;> simp at hmap
    rename_i m
    rwa [hmap] at he
  · intro h
    exact List.mem_filterMap.mpr ⟨Effect.taskStart n, h, rfl⟩

theorem mem_emittedEvents (effs : List Effect) (n : String) :
    n ∈ emittedEvents effs ↔ ∃ b, Effect.emit n b ∈ effs := by
  constructor
  · intro h
    rcases List.mem_filterMap.mp h with ⟨e, he, hmap⟩
    cases e <;> simp at hmap
    rename_i ev b
    exact ⟨b, by rwa [hmap] at he⟩
  · rintro ⟨b, hb⟩
    exact List.mem_filterMap.mpr ⟨Effect.emit n b, hb, rfl⟩

/-! ## Helper lemmas about the locked commit/emit sections -/

theorem lockedCommit_cases (env : Env) :
    lockedCommit env = [.lockAcquire, .commitLog true, .lockRelease] ∨
    lockedCommit env = [.lockAcquire, .commitLog false, .lockRelease] := by
  by_cases h : env.commit_log_fails <;> simp [lockedCommit, commitLogCall, h]

theorem lockedEmit_true_cases (env : Env) (ev : String) :
    lockedEmit env true ev = [.lockAcquire, .emit ev true, .lockRelease] ∨
    lockedEmit env true ev = [.lockAcquire, .emit ev false, .lockRelease] := by
  by_cases h : env.emit_fails <;> simp [lockedEmit, emitCall, h]

theorem lockedEmit_shape (env : Env) (b : Bool) (ev : String) (e : Effect)
    (h : e ∈ lockedEmit env b ev) :
    e = .lockAcquire ∨ e = .lockRelease ∨ e = .emit ev true ∨ e = .emit ev false := by
  cases b
  · simp [lockedEmit] at h
    rcases h with h | h <;> simp [h]
  · rcases lockedEmit_true_cases env ev with hc | hc <;> rw [hc] at h <;>
      simp at h <;> rcases h with h | h | h <;> simp [h]

theorem lockedCommit_shape (env : Env) (e : Effect) (h : e ∈ lockedCommit env) :
    e = .lockAcquire ∨ e = .lockRelease ∨ e = .commitLog true ∨ e = .commitLog false := by
  rcases lockedCommit_cases env with hc | hc <;> rw [hc] at h <;>
    simp at h <;> rcases h with h | h | h <;> simp [h]

theorem lockedCommit_balanced (env : Env) :
    (lockedCommit env).count Effect.lockRelease = (lockedCommit env).count Effect.lockAcquire := by
  rcases lockedCommit_cases env with hc | hc <;> rw [hc] <;> rfl

theorem lockedEmit_balanced (env : Env) (b : Bool) (ev : String) :
    (lockedEmit env b ev).count Effect.lockRelease
      = (lockedEmit env b ev).count Effect.lockAcquire := by
  cases b
  · rfl
  · rcases lockedEmit_true_cases env ev with hc | hc <;> rw [hc] <;>
      simp [List.count_cons, List.count_nil]

theorem lockedEmit_mem_emit (env : Env) (ev : String) :
    ∃ b, Effect.emit ev b ∈ lockedEmit env true ev := by
  rcases lockedEmit_true_cases env ev with hc | hc <;> rw [hc]
  · exact ⟨true, by simp⟩
  · exact ⟨false, by simp⟩

/-! ## Case analysis of `_on_completion` -/

theorem on_completion_not_running (env : Env) (j : Job) (h : j.status ≠ .running) :
    j._on_completion env = { err := none, job := j } := by
  simp [Job._on_completion, h]

theorem on_completion_incomplete (env : Env) (j : Job) (l : RunLog)
    (hst : j.status = .running) (hlog : j.run_log = .log l)
    (h : l.tasks.all (fun kv => kv.2.success.isSome) = false) :
    j._on_completion env = { err := none, job := j } := by
  simp [Job._on_completion, hst, hlog, h]

theorem on_completion_failure (env : Env) (j : Job) (l : RunLog)
    (hst : j.status = .running) (hlog : j.run_log = .log l)
    (hall : l.tasks.all (fun kv => kv.2.success.isSome) = true)
    (hfail : l.tasks.any (fun kv => kv.2.success.getD false = false) = true) :
    j._on_completion env =
      { err := none, job := { j with status := JobStatus.failed, snapshot := none },
        effects := lockedEmit env j.has_event_handler "job_failed" } := by
  simp only [Job._on_completion, hlog, hst]
  rw [hall, hfail]
  simp [Job.destroy_snapshot, hst]

theorem on_completion_success (env : Env) (j : Job) (l : RunLog)
    (hst : j.status = .running) (hlog : j.run_log = .log l)
    (hall : l.tasks.all (fun kv => kv.2.success.isSome) = true)
    (hfail : l.tasks.any (fun kv => kv.2.success.getD false = false) = false) :
    j._on_completion env =
      { err := none, job := { j with status := JobStatus.waiting,
                                     run_log := RunLogField.emptyDict, snapshot := none },
        effects := lockedEmit env j.has_event_handler "job_complete" } := by
  simp only [Job._on_completion, hlog, hst]
  rw [hall, hfail]
  simp [Job.destroy_snapshot, hst]

/-! ## Claim C2: overall-completion evaluation -/

/-- Claim C2: after a task completes, while status is `running`, the run
is considered complete exactly when every task that has a run-log entry
also carries a result (a success field); when complete, if any entry
records a failure the status becomes `failed` and a `job_failed` event is
emitted, otherwise the status returns to `waiting`, the run log is
cleared, and a `job_complete` event is emitted; in both outcomes the
snapshot is set back to null. -/
theorem overall_completion_evaluation (env : Env) (j : Job) (l : RunLog)
    (hst : j.status = .running) (hlog : j.run_log = .log l)
    (hhandler : j.has_event_handler = true) :
    j._is_complete = some (l.tasks.all (fun kv => kv.2.success.isSome)) ∧
    ((l.tasks.all (fun kv => kv.2.success.isSome)) = false →
        j._on_completion env = { err := none, job := j }) ∧
    ((l.tasks.all (fun kv => kv.2.success.isSome)) = true →
      (j._on_completion env).err = none ∧
      (j._on_completion env).job.snapshot = none ∧
      ((l.tasks.any (fun kv => kv.2.success.getD false = false)) = true →
          (j._on_completion env).job.status = .failed ∧
          (j._on_completion env).job.run_log = .log l ∧
          "job_failed" ∈ emittedEvents (j._on_completion env).effects) ∧
      ((l.tasks.any (fun kv => kv.2.success.getD false = false)) = false →
          (j._on_completion env).job.status = .waiting ∧
          (j._on_completion env).job.run_log = .emptyDict ∧
          "job_complete" ∈ emittedEvents (j._on_completion env).effects)) := by
  refine ⟨by simp [Job._is_complete, hlog], ?_, ?_⟩
  · intro h
    exact on_completion_incomplete env j l hst hlog h
  · intro hall
    by_cases hfail : (l.tasks.any (fun kv => kv.2.success.getD false = false)) = true
    · rw [on_completion_failure env j l hst hlog hall hfail]
      refine ⟨rfl, rfl, fun _ => ⟨rfl, by simp [hlog], ?_⟩,
        fun h => by rw [h] at hfail; exact Bool.noConfusion hfail⟩
      rw [hhandler, mem_emittedEvents]
      exact lockedEmit_mem_emit env "job_failed"
    · rw [on_completion_success env j l hst hlog hall (by simpa using hfail)]
      refine ⟨rfl, rfl, fun h => absurd h hfail, fun _ => ⟨rfl, rfl, ?_⟩⟩
      rw [hhandler, mem_emittedEvents]
      exact lockedEmit_mem_emit env "job_complete"

def c2log : RunLog := { tasks := [("a", { success := some false }), ("b", { success := some true })] }

def c2job : Job :=
  { status := .running, graph := [("a", ["b"]), ("b", [])],
    tasks := [("a", { name := "a", command := "ca" }), ("b", { name := "b", command := "cb" })],
    run_log := .log c2log, snapshot := some [("a", ["b"]), ("b", [])] }

theorem overall_completion_evaluation_witness :
    c2job.status = .running ∧ c2job.run_log = .log c2log ∧ c2job.has_event_handler = true ∧
    (c2job._is_complete = some (c2log.tasks.all (fun kv => kv.2.success.isSome)) ∧
    ((c2log.tasks.all (fun kv => kv.2.success.isSome)) = false →
        c2job._on_completion {} = { err := none, job := c2job }) ∧
    ((c2log.tasks.all (fun kv => kv.2.success.isSome)) = true →
      (c2job._on_completion {}).err = none ∧
      (c2job._on_completion {}).job.snapshot = none ∧
      ((c2log.tasks.any (fun kv => kv.2.success.getD false = false)) = true →
          (c2job._on_completion {}).job.status = .failed ∧
          (c2job._on_completion {}).job.run_log = .log c2log ∧
          "job_failed" ∈ emittedEvents (c2job._on_completion {}).effects) ∧
      ((c2log.tasks.any (fun kv => kv.2.success.getD false = false)) = false →
          (c2job._on_completion {}).job.status = .waiting ∧
          (c2job._on_completion {}).job.run_log = .emptyDict ∧
          "job_complete" ∈ emittedEvents (c2job._on_completion {}).effects))) :=
  ⟨rfl, rfl, rfl, overall_completion_evaluation {} c2job c2log rfl rfl rfl⟩

/-! ## Claim C4: start on a cyclic graph -/

/-- Claim C4: for a job whose start guard permits starting and whose
graph contains a cycle while no snapshot is active, `start()` reports
the validation reason as an error, the run never begins (no tasks are
started, no run log is allocated), the status is left unchanged, and the
snapshot field remains null. -/
theorem start_cycle_aborts (env : Env) (j : Job)
    (hst : j.status = .waiting) (hcyc : isAcyclic j.graph = false)
    (hsnap : j.snapshot = none) :
    (j.start env).err = some (.dagobah (validate j.graph).2) ∧
    (j.start env).job = j ∧
    (j.start env).job.snapshot = none ∧
    (j.start env).effects = [] := by
  have hv : (validate j.graph).1 = false := by simp [validate, hcyc]
  have : j.start env = { err := some (.dagobah (validate j.graph).2), job := j } := by
    simp only [Job.start, hst, allow_start, Bool.not_true, Bool.false_eq_true, if_false,
      Job.initialize_snapshot]
    rw [hv]
    simp
  rw [this]
  exact ⟨rfl, rfl, hsnap, rfl⟩

def c4job : Job :=
  { status := .waiting, graph := [("a", ["b"]), ("b", ["a"])],
    tasks := [("a", { name := "a", command := "ca" }), ("b", { name := "b", command := "cb" })] }

theorem start_cycle_aborts_witness :
    c4job.status = .waiting ∧ isAcyclic c4job.graph = false ∧ c4job.snapshot = none ∧
    ((c4job.start {}).err = some (.dagobah (validate c4job.graph).2) ∧
     (c4job.start {}).job = c4job ∧
     (c4job.start {}).job.snapshot = none ∧
     (c4job.start {}).effects = []) :=
  ⟨rfl, by decide, rfl, start_cycle_aborts {} c4job rfl (by decide) rfl⟩

/-! ## Claim C9: terminate_all and kill_all -/

/-- Claim C9: `terminate_all()` and `kill_all()` issue a terminate
(respectively kill) request to exactly those tasks whose started marker
is set and whose completed marker is not set, and leave all other job
state unchanged: the run log, the status, the snapshot, and the graph
are not mutated by either operation. -/
theorem terminate_kill_requests (j : Job) (n : String) :
    (j.terminate_all).job = j ∧ (j.kill_all).job = j ∧
    (j.terminate_all).err = none ∧ (j.kill_all).err = none ∧
    (Effect.taskTerminate n ∈ (j.terminate_all).effects ↔
      ∃ kv, kv ∈ j.tasks ∧ kv.1 = n ∧ kv.2.started_at.isSome = true ∧
        kv.2.completed_at.isNone = true) ∧
    (Effect.taskKill n ∈ (j.kill_all).effects ↔
      ∃ kv, kv ∈ j.tasks ∧ kv.1 = n ∧ kv.2.started_at.isSome = true ∧
        kv.2.completed_at.isNone = true) := by
  refine ⟨rfl, rfl, rfl, rfl, ?_, ?_⟩ <;>
    · simp only [Job.terminate_all, Job.kill_all, List.mem_map, List.mem_filter]
      constructor
      · rintro ⟨kv, ⟨hmem, hcond⟩, heq⟩
        simp only [Effect.taskTerminate.injEq, Effect.taskKill.injEq] at heq
        simp only [Bool.and_eq_true] at hcond
        exact ⟨kv, hmem, heq, hcond.1, hcond.2⟩
      · rintro ⟨kv, hmem, hn, hs, hc⟩
        exact ⟨kv, ⟨hmem, by simp [hs, hc]⟩, by rw [hn]⟩

/-! ## Claim C5: retry with nothing to retry -/

def c5log : RunLog := { tasks := [("a", { success := some true })] }

def c5job : Job :=
  { status := .failed, graph := [("a", [])],
    tasks := [("a", { name := "a", command := "ca" })],
    run_log := .log c5log, snapshot := none }

/-- Claim C5 counterexample: on a job whose run log has no failed entry,
`retry()` does fail with the nothing-to-retry error, but it mutates
state: the snapshot field, null beforehand, is left holding a fresh copy
of the graph, because `initialize_snapshot` runs before the failed-entry
scan.  The claim "mutates no state ... the snapshot field is unchanged
(remains null if it was null)" is therefore false. -/
theorem retry_mutates_snapshot_cex :
    (c5job.retry {}).err = some (.dagobah "no failed tasks to retry") ∧
    c5job.snapshot = none ∧
    (c5job.retry {}).job.snapshot = some [("a", [])] := by decide

/-- Claim C5 as amended: for every job whose run log is present and
contains no task entry with an explicit `success = false`, and whose
graph is acyclic, `retry()` fails with the nothing-to-retry error and
leaves the status, the run log, the task registry, and the graph
unchanged, starts no task and commits nothing; however the snapshot
field is set to a fresh validated copy of the graph rather than left
unchanged. -/
theorem retry_nothing_to_retry (env : Env) (j : Job) (l : RunLog)
    (hlog : j.run_log = .log l) (hnofail : failedNames l = [])
    (hacyc : isAcyclic j.graph = true) :
    (j.retry env).err = some (.dagobah "no failed tasks to retry") ∧
    (j.retry env).job.status = j.status ∧
    (j.retry env).job.run_log = j.run_log ∧
    (j.retry env).job.tasks = j.tasks ∧
    (j.retry env).job.graph = j.graph ∧
    (j.retry env).effects = [] ∧
    (j.retry env).job.snapshot = some j.graph := by
  have hv : (validate j.graph).1 = true := by simp [validate, hacyc]
  have hr : j.retry env = { err := some (.dagobah "no failed tasks to retry"),
                            job := { j with snapshot := some j.graph } } := by
    simp only [Job.retry, Job.initialize_snapshot]
    rw [hv]
    simp [hlog, hnofail]
  rw [hr]
  exact ⟨rfl, rfl, hlog ▸ rfl, rfl, rfl, rfl, rfl⟩

theorem retry_nothing_to_retry_witness :
    c5job.run_log = .log c5log ∧ failedNames c5log = [] ∧ isAcyclic c5job.graph = true ∧
    ((c5job.retry {}).err = some (.dagobah "no failed tasks to retry") ∧
     (c5job.retry {}).job.status = c5job.status ∧
     (c5job.retry {}).job.run_log = c5job.run_log ∧
     (c5job.retry {}).job.tasks = c5job.tasks ∧
     (c5job.retry {}).job.graph = c5job.graph ∧
     (c5job.retry {}).effects = [] ∧
     (c5job.retry {}).job.snapshot = some c5job.graph) :=
  ⟨rfl, by decide, by decide,
    retry_nothing_to_retry {} c5job c5log rfl (by decide) (by decide)⟩

/-! ## Claim C6: add_task with a name conflict -/

def c6job : Job :=
  { status := .waiting, graph := [("a", [])],
    tasks := [("a", { name := "a", command := "old" })] }

/-- Claim C6 counterexample: adding a task under an already-used name
reports an error, but the operation is not mutation-free: the task
registry's binding for that name is overwritten with the newly created
task before the graph-node addition signals the conflict. -/
theorem add_task_conflict_cex :
    (c6job.add_task "newcmd" (some "a")).err = some (.keyError "a") ∧
    alookup c6job.tasks "a" = some { name := "a", command := "old" } ∧
    alookup (c6job.add_task "newcmd" (some "a")).job.tasks "a"
      = some { name := "a", command := "newcmd" } := by decide

/-- Claim C6 as amended: for every job whose structural-change guard
permits the edit and every task name already present in the registry and
the graph, `add_task(command, name)` reports an error and leaves the
graph's node set and edges unchanged and commits nothing, but the task
registry entry for that name is overwritten with the newly created task
before the error is raised; when the name is omitted it defaults to the
command string. -/
theorem add_task_conflict (j : Job) (cmd n : String)
    (hst : j.status = .waiting) (hn : (alookup j.tasks n).isSome = true)
    (hg : (gkeys j.graph).contains n = true) :
    (j.add_task cmd (some n)).err = some (.keyError n) ∧
    (j.add_task cmd (some n)).job.graph = j.graph ∧
    (j.add_task cmd (some n)).job.tasks = aset j.tasks n { name := n, command := cmd } ∧
    (j.add_task cmd (some n)).effects = [] ∧
    j.add_task cmd none = j.add_task cmd (some cmd) := by
  have hr : j.add_task cmd (some n) =
      { err := some (.keyError n),
        job := { j with tasks := aset j.tasks n { name := n, command := cmd } } } := by
    have hmem : n ∈ gkeys j.graph := by simpa using hg
    simp [Job.add_task, hst, allow_change_graph, hmem]
  rw [hr]
  exact ⟨rfl, rfl, rfl, rfl, rfl⟩

theorem add_task_conflict_witness :
    c6job.status = .waiting ∧ (alookup c6job.tasks "a").isSome = true ∧
    (gkeys c6job.graph).contains "a" = true ∧
    ((c6job.add_task "newcmd" (some "a")).err = some (.keyError "a") ∧
     (c6job.add_task "newcmd" (some "a")).job.graph = c6job.graph ∧
     (c6job.add_task "newcmd" (some "a")).job.tasks
       = aset c6job.tasks "a" { name := "a", command := "newcmd" } ∧
     (c6job.add_task "newcmd" (some "a")).effects = [] ∧
     c6job.add_task "newcmd" none = c6job.add_task "newcmd" (some "newcmd")) :=
  ⟨rfl, by decide, by decide,
    add_task_conflict c6job "newcmd" "a" rfl (by decide) (by decide)⟩

/-! ## The seeding loop of `start` and `retry` -/

/-- The seed entry written by `_put_task_in_run_log`. -/
def seedEntry (env : Env) (t : Task) : LogEntry :=
  { success := none, start_time := some env.now, command := some t.command }

theorem seedAndStart_cons (j : Job) (env : Env) (n : String) (rest : List String)
    (t : Task) (l : RunLog) (ht : alookup j.tasks n = some t) (hlog : j.run_log = .log l) :
    j.seedAndStart env (n :: rest) =
      ((({ j with
            run_log := RunLogField.log { l with tasks := aset l.tasks n (seedEntry env t) },
            tasks := aset j.tasks n (Task.start t) } : Job).seedAndStart env rest).1,
       (({ j with
            run_log := RunLogField.log { l with tasks := aset l.tasks n (seedEntry env t) },
            tasks := aset j.tasks n (Task.start t) } : Job).seedAndStart env rest).2.1,
       Effect.taskStart n ::
        (({ j with
            run_log := RunLogField.log { l with tasks := aset l.tasks n (seedEntry env t) },
            tasks := aset j.tasks n (Task.start t) } : Job).seedAndStart env rest).2.2) := by
  simp only [Job.seedAndStart, ht, Job._put_task_in_run_log, hlog, seedEntry]

theorem startedNames_taskStart_cons (n : String) (effs : List Effect) :
    startedNames (Effect.taskStart n :: effs) = n :: startedNames effs := by
  simp [startedNames, List.filterMap_cons]

theorem seedAndStart_spec (env : Env) (ns : List String) :
    ∀ (j : Job) (l : RunLog), j.run_log = .log l →
    (∀ n ∈ ns, (alookup j.tasks n).isSome = true) →
    (j.seedAndStart env ns).1 = none ∧
    startedNames (j.seedAndStart env ns).2.2 = ns ∧
    (j.seedAndStart env ns).2.1.status = j.status ∧
    (j.seedAndStart env ns).2.1.snapshot = j.snapshot ∧
    (j.seedAndStart env ns).2.1.graph = j.graph ∧
    (j.seedAndStart env ns).2.1.has_event_handler = j.has_event_handler ∧
    (∀ m, (alookup (j.seedAndStart env ns).2.1.tasks m).isSome
            = (alookup j.tasks m).isSome) ∧
    (∀ m, ((alookup (j.seedAndStart env ns).2.1.tasks m).map Task.command)
            = ((alookup j.tasks m).map Task.command)) ∧
    ∃ l', (j.seedAndStart env ns).2.1.run_log = .log l' ∧
      l'.log_id = l.log_id ∧ l'.start_time = l.start_time ∧
      l'.last_retry_time = l.last_retry_time ∧
      (∀ m, m ∉ ns → alookup l'.tasks m = alookup l.tasks m) ∧
      (∀ n ∈ ns, ∀ t, alookup j.tasks n = some t →
        alookup l'.tasks n = some (seedEntry env t)) := by
  induction ns with
  | nil =>
      intro j l hlog _
      refine ⟨rfl, rfl, rfl, rfl, rfl, rfl, fun m => rfl, fun m => rfl,
        l, hlog, rfl, rfl, rfl, fun m _ => rfl, fun n hn => absurd hn (List.not_mem_nil n)⟩
  | cons n rest ih =>
      intro j l hlog hns
      have hn : (alookup j.tasks n).isSome = true := hns n (by simp)
      obtain ⟨t, ht⟩ := Option.isSome_iff_exists.mp hn
      rw [seedAndStart_cons j env n rest t l ht hlog]
      have hrec := ih
        { j with
            run_log := RunLogField.log { l with tasks := aset l.tasks n (seedEntry env t) },
            tasks := aset j.tasks n (Task.start t) }
        { l with tasks := aset l.tasks n (seedEntry env t) }
        rfl
        (by
          intro n' hn'
          show (alookup (aset j.tasks n (Task.start t)) n').isSome = true
          by_cases heq : n' = n
          · subst heq; rw [alookup_aset_self]; rfl
          · rw [alookup_aset_ne _ _ _ _ heq]; exact hns n' (List.mem_cons_of_mem n hn'))
      obtain ⟨he, hsn, hstat, hsnap, hgr, hhand, hsome, hcmd, l'', hl'', hid, hstart,
        hretry, hpres, hseed⟩ := hrec
      refine ⟨he, ?_, hstat, hsnap, hgr, hhand, ?_, ?_, l'', hl'', hid, hstart, hretry,
        ?_, ?_⟩
      · rw [startedNames_taskStart_cons, hsn]
      · intro m
        rw [hsome m]
        by_cases heq : m = n
        · subst heq; rw [alookup_aset_self, ht]; rfl
        · rw [alookup_aset_ne _ _ _ _ heq]
      · intro m
        rw [hcmd m]
        by_cases heq : m = n
        · subst heq; rw [alookup_aset_self, ht]; rfl
        · rw [alookup_aset_ne _ _ _ _ heq]
      · intro m hm
        have hm1 : m ∉ rest := fun h => hm (List.mem_cons_of_mem n h)
        have hm2 : m ≠ n := fun h => hm (h ▸ List.mem_cons_self n rest)
        rw [hpres m hm1]
        exact alookup_aset_ne _ _ _ _ hm2
      · intro n' hn' t' ht'
        rcases List.mem_cons.mp hn' with heq | hmem
        · subst heq
          rw [ht] at ht'
          injection ht' with ht2
          rw [← ht2]
          by_cases hrest : n' ∈ rest
          · exact hseed n' hrest (Task.start t) (alookup_aset_self _ _ _)
          · rw [hpres n' hrest]
            exact alookup_aset_self _ _ _
        · by_cases heq : n' = n
          · subst heq
            rw [ht] at ht'
            injection ht' with ht2
            rw [← ht2]
            exact hseed n' hmem (Task.start t) (alookup_aset_self _ _ _)
          · exact hseed n' hmem t'
              ((alookup_aset_ne j.tasks n n' (Task.start t) heq).trans ht')

theorem alookup_map_value {α β : Type} (f : α → β) (m : List (String × α)) (k : String) :
    alookup (m.map (fun kv => (kv.1, f kv.2))) k = (alookup m k).map f := by
  induction m with
  | nil => rfl
  | cons hd tl ih =>
      obtain ⟨a, b⟩ := hd
      by_cases h : a = k <;> simp [alookup, h, ih]

/-- The job state `Job.start` reaches just before seeding the roots:
snapshot installed, cron advanced, fresh run log, status `running`,
every task reset. -/
def startMid (env : Env) (j : Job) : Job :=
  { j with
      status := JobStatus.running,
      snapshot := some j.graph,
      run_log := RunLogField.log { log_id := env.new_log_id, start_time := env.now, tasks := [] },
      tasks := j.tasks.map (fun kv => (kv.1, Task.reset kv.2)),
      next_run := (startCron env { j with snapshot := some j.graph }).1,
      cron_iter := (startCron env { j with snapshot := some j.graph }).2 }

/-- Reduction of a permitted `start` on an acyclic graph down to the
seeding stage: seeding the roots from `startMid` gives the final
result. -/
theorem start_reduction (env : Env) (j : Job) (hst : j.status = .waiting)
    (hacyc : isAcyclic j.graph = true) :
    (startMid env j).status = .running ∧ (startMid env j).snapshot = some j.graph ∧
    (startMid env j).graph = j.graph ∧
    (startMid env j).has_event_handler = j.has_event_handler ∧
    (startMid env j).run_log
      = RunLogField.log { log_id := env.new_log_id, start_time := env.now, tasks := [] } ∧
    (∀ m, (alookup (startMid env j).tasks m).isSome = (alookup j.tasks m).isSome) ∧
    (∀ m, (alookup (startMid env j).tasks m).map Task.command
            = (alookup j.tasks m).map Task.command) ∧
    j.start env =
      (match ((startMid env j).seedAndStart env (indNodes j.graph)).1 with
       | some e =>
           { err := some e,
             job := ((startMid env j).seedAndStart env (indNodes j.graph)).2.1,
             effects := ((startMid env j).seedAndStart env (indNodes j.graph)).2.2 }
       | none =>
           match commitLogCall env with
           | .ok _ =>
               { err := none,
                 job := ((startMid env j).seedAndStart env (indNodes j.graph)).2.1,
                 effects := ((startMid env j).seedAndStart env (indNodes j.graph)).2.2
                            ++ [.commitLog true] }
           | .error m =>
               { err := some (.backendError m),
                 job := ((startMid env j).seedAndStart env (indNodes j.graph)).2.1,
                 effects := ((startMid env j).seedAndStart env (indNodes j.graph)).2.2
                            ++ [.commitLog false] }) := by
  have hv : (validate j.graph).1 = true := by simp [validate, hacyc]
  refine ⟨rfl, rfl, rfl, rfl, rfl, ?_, ?_, ?_⟩
  · intro m
    show (alookup (j.tasks.map (fun kv => (kv.1, Task.reset kv.2))) m).isSome
        = (alookup j.tasks m).isSome
    rw [alookup_map_value]
    cases alookup j.tasks m <;> rfl
  · intro m
    show (alookup (j.tasks.map (fun kv => (kv.1, Task.reset kv.2))) m).map Task.command
        = (alookup j.tasks m).map Task.command
    rw [alookup_map_value]
    cases alookup j.tasks m <;> rfl
  · simp only [Job.start, hst, allow_start, Bool.not_true, Bool.false_eq_true, if_false,
      Job.initialize_snapshot]
    rw [hv]
    simp only [if_true, startMid]
    rfl

/-! ## Claim C3: start seeds exactly the root nodes -/

/-- Claim C3: for every job whose start guard permits starting and whose
graph snapshot is acyclic, `start()` transitions the status from
`waiting` to `running` and creates run-log entries containing a
start time and the task's command for exactly the root nodes of the
snapshot, each of which is then started; no non-root task gains a
run-log entry at start. -/
theorem start_seeds_roots (env : Env) (j : Job)
    (hst : j.status = .waiting) (hacyc : isAcyclic j.graph = true)
    (hkeys : ∀ n ∈ indNodes j.graph, (alookup j.tasks n).isSome = true)
    (hcommit : env.commit_log_fails = false) :
    (j.start env).err = none ∧
    (j.start env).job.status = .running ∧
    (j.start env).job.snapshot = some j.graph ∧
    startedNames (j.start env).effects = indNodes j.graph ∧
    (∀ n t, n ∈ indNodes j.graph → alookup j.tasks n = some t →
        entryOf (j.start env).job n
          = some { success := none, start_time := some env.now, command := some t.command }) ∧
    (∀ n, n ∉ indNodes j.graph → entryOf (j.start env).job n = none) := by
  have hcall : commitLogCall env = Except.ok () := by simp [commitLogCall, hcommit]
  obtain ⟨hmst, hmsnap, hmgr, hmhand, hmlog, hmsome, hmcmd, hred⟩ :=
    start_reduction env j hst hacyc
  obtain ⟨he, hsn, hstat, hsnap2, hgr2, hhand2, hsome2, hcmd2, l', hl', hid2, hs2, hr2,
      hpres, hseed⟩ :=
    seedAndStart_spec env (indNodes j.graph) (startMid env j)
      { log_id := env.new_log_id, start_time := env.now, tasks := [] } hmlog
      (fun n hn => by rw [hmsome n]; exact hkeys n hn)
  rw [hred, he]
  simp only [hcall]
  refine ⟨by trivial, ?_, ?_, ?_, ?_, ?_⟩
  · rw [hstat, hmst]
  · rw [hsnap2, hmsnap]
  · rw [startedNames_append, hsn]
    simp [startedNames]
  · intro n t hn ht
    have hcv : (alookup (startMid env j).tasks n).map Task.command = some t.command := by
      rw [hmcmd n, ht]
      rfl
    obtain ⟨t', ht', _⟩ := Option.map_eq_some'.mp hcv
    have hentry := hseed n hn t' ht'
    have hc2 : t'.command = t.command := by
      rw [ht'] at hcv
      simpa using hcv
    simp only [entryOf, hl', hentry, seedEntry, hc2]
  · intro n hn
    simp only [entryOf, hl']
    rw [hpres n hn]
    rfl

def c3job : Job :=
  { status := .waiting, graph := [("a", ["b"]), ("b", [])],
    tasks := [("a", { name := "a", command := "ca" }), ("b", { name := "b", command := "cb" })] }

theorem start_seeds_roots_witness :
    c3job.status = .waiting ∧ isAcyclic c3job.graph = true ∧
    (∀ n ∈ indNodes c3job.graph, (alookup c3job.tasks n).isSome = true) ∧
    (Env.commit_log_fails {} = false) ∧
    ((c3job.start {}).err = none ∧
     (c3job.start {}).job.status = .running ∧
     (c3job.start {}).job.snapshot = some c3job.graph ∧
     startedNames (c3job.start {}).effects = indNodes c3job.graph ∧
     (∀ n t, n ∈ indNodes c3job.graph → alookup c3job.tasks n = some t →
        entryOf (c3job.start {}).job n
          = some { success := none, start_time := some (Env.now {}), command := some t.command }) ∧
     (∀ n, n ∉ indNodes c3job.graph → entryOf (c3job.start {}).job n = none)) :=
  ⟨rfl, by decide, by decide, rfl,
    start_seeds_roots {} c3job rfl (by decide) (by decide) rfl⟩

/-! ## Claim C10: retry consults no guard -/

/-- Claim C10: `retry()` consults no RunState guard and performs no
status check: for every current status, if the graph is acyclic and the
run log contains at least one entry with explicit `success = false`,
`retry()` succeeds, sets the status to `running`, and restarts exactly
the tasks whose entries recorded `success = false`; it never raises a
guard-violation error naming the current status. -/
theorem retry_ignores_status (env : Env) (j : Job) (l : RunLog)
    (hlog : j.run_log = .log l) (hacyc : isAcyclic j.graph = true)
    (hfail : failedNames l ≠ [])
    (htasks : ∀ n ∈ failedNames l, (alookup j.tasks n).isSome = true)
    (hcommit : env.commit_log_fails = false) :
    (j.retry env).err = none ∧
    (j.retry env).job.status = .running ∧
    startedNames (j.retry env).effects = failedNames l := by
  have hv : (validate j.graph).1 = true := by simp [validate, hacyc]
  have hcall : commitLogCall env = Except.ok () := by simp [commitLogCall, hcommit]
  simp only [Job.retry, Job.initialize_snapshot]
  rw [hv]
  simp only [if_true, hlog, if_neg hfail]
  obtain ⟨he, hsn, hstat, hsnap2, hgr2, hhand2, hsome2, hcmd2, l', hl', hid2, hs2, hr2,
      hpres, hseed⟩ :=
    seedAndStart_spec env (failedNames l)
      { j with snapshot := some j.graph, status := JobStatus.running,
               run_log := RunLogField.log { l with last_retry_time := some env.now } }
      { l with last_retry_time := some env.now } rfl (fun n hn => htasks n hn)
  rw [he]
  simp only [hcall]
  refine ⟨by trivial, ?_, ?_⟩
  · rw [hstat]
  · rw [startedNames_append, hsn]
    simp [startedNames]

def c10log : RunLog := { tasks := [("a", { success := some true }), ("c", { success := some false })] }

def c10job : Job :=
  { status := .running, graph := [("a", ["c"]), ("c", [])],
    tasks := [("a", { name := "a", command := "ca" }), ("c", { name := "c", command := "cc" })],
    run_log := .log c10log, snapshot := none }

theorem retry_ignores_status_witness :
    c10job.run_log = .log c10log ∧ isAcyclic c10job.graph = true ∧
    failedNames c10log ≠ [] ∧
    (∀ n ∈ failedNames c10log, (alookup c10job.tasks n).isSome = true) ∧
    (Env.commit_log_fails {} = false) ∧
    ((c10job.retry {}).err = none ∧
     (c10job.retry {}).job.status = .running ∧
     startedNames (c10job.retry {}).effects = failedNames c10log) :=
  ⟨rfl, by decide, by decide, by decide, rfl,
    retry_ignores_status {} c10job c10log rfl (by decide) (by decide) (by decide) rfl⟩

/-! ## Readiness propagation lemmas -/

theorem isSome_alookup_aset_of {α : Type} (m : List (String × α)) (k k' : String) (v : α)
    (h : (alookup m k).isSome = true) :
    (alookup (aset m k v) k').isSome = (alookup m k').isSome := by
  by_cases heq : k' = k
  · subst heq
    rw [alookup_aset_self, h]
    rfl
  · rw [alookup_aset_ne _ _ _ _ heq]

theorem start_if_ready_true (env : Env) (j : Job) (l : RunLog) (s : Graph) (d : String)
    (t : Task) (hlog : j.run_log = .log l) (hsnap : j.snapshot = some s)
    (ht : alookup j.tasks d = some t) (hready : ready s l.tasks d = true) :
    j._start_if_ready env d =
      (none,
       { j with
           run_log := RunLogField.log { l with tasks := aset l.tasks d (seedEntry env t) },
           tasks := aset j.tasks d (Task.start t) },
       [Effect.taskStart d]) := by
  simp only [Job._start_if_ready, ht, hsnap, hlog, hready, Job._put_task_in_run_log, seedEntry]
  simp

theorem start_if_ready_false (env : Env) (j : Job) (l : RunLog) (s : Graph) (d : String)
    (t : Task) (hlog : j.run_log = .log l) (hsnap : j.snapshot = some s)
    (ht : alookup j.tasks d = some t) (hready : ready s l.tasks d = false) :
    j._start_if_ready env d = (none, j, []) := by
  simp only [Job._start_if_ready, ht, hsnap, hlog, hready]
  simp

/-- The well-behaved run of the propagation loop: when the snapshot and
run log are in place and every downstream node is a registered task, the
loop raises nothing, its effects are task starts of downstream nodes
only, it leaves status/snapshot/graph/handler and the task registry's
domain alone, and it touches no run-log entry outside the downstream
list. -/
theorem propagate_ok (env : Env) (s : Graph) (ds : List String) :
    ∀ (j : Job) (l : RunLog), j.run_log = .log l → j.snapshot = some s →
    (∀ d ∈ ds, (alookup j.tasks d).isSome = true) →
    (j.propagate env ds).1 = none ∧
    (∀ e ∈ (j.propagate env ds).2.2, ∃ n, e = Effect.taskStart n ∧ n ∈ ds) ∧
    (j.propagate env ds).2.1.status = j.status ∧
    (j.propagate env ds).2.1.snapshot = some s ∧
    (j.propagate env ds).2.1.graph = j.graph ∧
    (j.propagate env ds).2.1.has_event_handler = j.has_event_handler ∧
    (∀ m, (alookup (j.propagate env ds).2.1.tasks m).isSome = (alookup j.tasks m).isSome) ∧
    ∃ l', (j.propagate env ds).2.1.run_log = .log l' ∧
      (∀ m, m ∉ ds → alookup l'.tasks m = alookup l.tasks m) := by
  induction ds with
  | nil =>
      intro j l hlog hsnap _
      exact ⟨rfl, by simp [Job.propagate], rfl, hsnap, rfl, rfl, fun m => rfl,
        l, hlog, fun m _ => rfl⟩
  | cons d rest ih =>
      intro j l hlog hsnap hds
      obtain ⟨t, ht⟩ := Option.isSome_iff_exists.mp (hds d (by simp))
      by_cases hready : ready s l.tasks d = true
      · rw [Job.propagate, start_if_ready_true env j l s d t hlog hsnap ht hready]
        obtain ⟨ihe, iheff, ihst, ihsnap, ihgr, ihhand, ihsome, l'', ihlog, ihpres⟩ :=
          ih { j with
                run_log := RunLogField.log { l with tasks := aset l.tasks d (seedEntry env t) },
                tasks := aset j.tasks d (Task.start t) }
             { l with tasks := aset l.tasks d (seedEntry env t) }
             rfl hsnap
             (fun d' hd' => by
                show (alookup (aset j.tasks d (Task.start t)) d').isSome = true
                rw [isSome_alookup_aset_of _ _ _ _ (by rw [ht]; rfl)]
                exact hds d' (List.mem_cons_of_mem d hd'))
        refine ⟨ihe, ?_, ihst, ihsnap, ihgr, ihhand, ?_, l'', ihlog, ?_⟩
        · intro e he
          rcases List.mem_cons.mp he with heq | hmem
          · exact ⟨d, heq, List.mem_cons_self d rest⟩
          · obtain ⟨n, hn1, hn2⟩ := iheff e hmem
            exact ⟨n, hn1, List.mem_cons_of_mem d hn2⟩
        · intro m
          rw [ihsome m]
          exact isSome_alookup_aset_of _ _ _ _ (by rw [ht]; rfl)
        · intro m hm
          have hm1 : m ∉ rest := fun h => hm (List.mem_cons_of_mem d h)
          have hm2 : m ≠ d := fun h => hm (h ▸ List.mem_cons_self d rest)
          rw [ihpres m hm1]
          exact alookup_aset_ne _ _ _ _ hm2
      · rw [Job.propagate, start_if_ready_false env j l s d t hlog hsnap ht
          (Bool.eq_false_iff.mpr hready)]
        obtain ⟨ihe, iheff, ihst, ihsnap, ihgr, ihhand, ihsome, l'', ihlog, ihpres⟩ :=
          ih j l hlog hsnap (fun d' hd' => hds d' (List.mem_cons_of_mem d hd'))
        refine ⟨ihe, ?_, ihst, ihsnap, ihgr, ihhand, ihsome, l'', ihlog, ?_⟩
        · intro e he
          simp only [List.nil_append] at he
          obtain ⟨n, hn1, hn2⟩ := iheff e he
          exact ⟨n, hn1, List.mem_cons_of_mem d hn2⟩
        · intro m hm
          exact ihpres m (fun h => hm (List.mem_cons_of_mem d h))

theorem succTrue_aset_seed (tasks : List (String × LogEntry)) (d m : String) (e : LogEntry)
    (hsucc : e.success = none) (hd : succTrue tasks d = false) :
    succTrue (aset tasks d e) m = succTrue tasks m := by
  by_cases heq : m = d
  · subst heq
    rw [succTrue, alookup_aset_self, hd]
    simp [hsucc]
  · rw [succTrue, alookup_aset_ne _ _ _ _ heq, succTrue]

theorem ready_congr (s : Graph) (t1 t2 : List (String × LogEntry)) (x : String)
    (h : ∀ u, succTrue t1 u = succTrue t2 u) : ready s t1 x = ready s t2 x := by
  unfold ready
  induction Job._dependencies s x with
  | nil => rfl
  | cons a as ih => simp [List.all_cons, h a, ih]

/-- The semantics of the propagation loop on the run log: with a stable
snapshot and run log, registered downstream tasks, no downstream node
already recorded successful, and no duplicate downstream nodes, the
loop starts a downstream node if and only if every one of its upstream
nodes per the snapshot has an entry with success exactly true; a started
node gains a fresh seed entry, an unstarted node's entry is untouched,
and the success picture of the whole log is unchanged. -/
theorem propagate_ready (env : Env) (s : Graph) (ds : List String) :
    ∀ (j : Job) (l : RunLog), j.run_log = .log l → j.snapshot = some s →
    (∀ d ∈ ds, (alookup j.tasks d).isSome = true) →
    (∀ d ∈ ds, succTrue l.tasks d = false) →
    ds.Nodup →
    ∃ l', (j.propagate env ds).2.1.run_log = .log l' ∧
      (∀ m, succTrue l'.tasks m = succTrue l.tasks m) ∧
      (∀ m, m ∉ ds → alookup l'.tasks m = alookup l.tasks m) ∧
      (∀ e ∈ (j.propagate env ds).2.2, ∃ n, e = Effect.taskStart n ∧ n ∈ ds) ∧
      (∀ d ∈ ds,
        (Effect.taskStart d ∈ (j.propagate env ds).2.2 ↔ ready s l.tasks d = true) ∧
        (ready s l.tasks d = false → alookup l'.tasks d = alookup l.tasks d) ∧
        (ready s l.tasks d = true → ∃ t, alookup j.tasks d = some t ∧
          alookup l'.tasks d = some (seedEntry env t))) := by
  induction ds with
  | nil =>
      intro j l hlog _ _ _ _
      exact ⟨l, hlog, fun m => rfl, fun m _ => rfl, by simp [Job.propagate],
        fun d hd => absurd hd (List.not_mem_nil d)⟩
  | cons d rest ih =>
      intro j l hlog hsnap hds hnotsucc hnodup
      obtain ⟨t, ht⟩ := Option.isSome_iff_exists.mp (hds d (by simp))
      have hdfalse : succTrue l.tasks d = false := hnotsucc d (by simp)
      have hdnotin : d ∉ rest := (List.nodup_cons.mp hnodup).1
      have hnodup' : rest.Nodup := (List.nodup_cons.mp hnodup).2
      by_cases hready : ready s l.tasks d = true
      · rw [Job.propagate, start_if_ready_true env j l s d t hlog hsnap ht hready]
        have hpoint : ∀ u, succTrue (aset l.tasks d (seedEntry env t)) u = succTrue l.tasks u :=
          fun u => succTrue_aset_seed l.tasks d u (seedEntry env t) rfl hdfalse
        obtain ⟨l'', ihlog, ihsucc, ihpres, iheff, ihbundle⟩ :=
          ih { j with
                run_log := RunLogField.log { l with tasks := aset l.tasks d (seedEntry env t) },
                tasks := aset j.tasks d (Task.start t) }
             { l with tasks := aset l.tasks d (seedEntry env t) }
             rfl hsnap
             (fun d' hd' => by
                show (alookup (aset j.tasks d (Task.start t)) d').isSome = true
                rw [isSome_alookup_aset_of _ _ _ _ (by rw [ht]; rfl)]
                exact hds d' (List.mem_cons_of_mem d hd'))
             (fun d' hd' => by
                show succTrue (aset l.tasks d (seedEntry env t)) d' = false
                rw [hpoint d']
                exact hnotsucc d' (List.mem_cons_of_mem d hd'))
             hnodup'
        refine ⟨l'', ihlog, ?_, ?_, ?_, ?_⟩
        · intro m
          rw [ihsucc m]
          exact hpoint m
        · intro m hm
          have hm1 : m ∉ rest := fun h => hm (List.mem_cons_of_mem d h)
          have hm2 : m ≠ d := fun h => hm (h ▸ List.mem_cons_self d rest)
          rw [ihpres m hm1]
          exact alookup_aset_ne _ _ _ _ hm2
        · intro e he
          rcases List.mem_cons.mp he with heq | hmem
          · exact ⟨d, heq, List.mem_cons_self d rest⟩
          · obtain ⟨n, hn1, hn2⟩ := iheff e hmem
            exact ⟨n, hn1, List.mem_cons_of_mem d hn2⟩
        · intro d' hd'
          rcases List.mem_cons.mp hd' with heq | hmem
          · subst heq
            refine ⟨⟨fun _ => hready, fun _ => List.mem_cons_self _ _⟩, ?_, ?_⟩
            · intro hcontra
              rw [hready] at hcontra
              exact absurd hcontra (by simp)
            · intro _
              refine ⟨t, ht, ?_⟩
              rw [ihpres d' hdnotin]
              exact alookup_aset_self _ _ _
          · have hd'ne : d' ≠ d := fun h => hdnotin (h ▸ hmem)
            obtain ⟨hiff, hfalse, htrue⟩ := ihbundle d' hmem
            have hcongr : ready s (aset l.tasks d (seedEntry env t)) d' = ready s l.tasks d' :=
              ready_congr s _ _ d' hpoint
            refine ⟨?_, ?_, ?_⟩
            · rw [← hcongr, ← hiff]
              constructor
              · intro h
                rcases List.mem_cons.mp h with heq2 | hmem2
                · exact absurd (Effect.taskStart.inj heq2) hd'ne
                · exact hmem2
              · intro h
                exact List.mem_cons_of_mem _ h
            · intro hrf
              rw [hfalse (by rw [hcongr]; exact hrf)]
              exact alookup_aset_ne _ _ _ _ hd'ne
            · intro hrt
              obtain ⟨t2, ht2, hentry⟩ := htrue (by rw [hcongr]; exact hrt)
              refine ⟨t2, ?_, hentry⟩
              rw [← ht2]
              exact (alookup_aset_ne _ _ _ _ hd'ne).symm
      · rw [Job.propagate, start_if_ready_false env j l s d t hlog hsnap ht
          (Bool.eq_false_iff.mpr hready)]
        obtain ⟨l'', ihlog, ihsucc, ihpres, iheff, ihbundle⟩ :=
          ih j l hlog hsnap
             (fun d' hd' => hds d' (List.mem_cons_of_mem d hd'))
             (fun d' hd' => hnotsucc d' (List.mem_cons_of_mem d hd'))
             hnodup'
        refine ⟨l'', ihlog, ihsucc, ?_, ?_, ?_⟩
        · intro m hm
          exact ihpres m (fun h => hm (List.mem_cons_of_mem d h))
        · intro e he
          simp only [List.nil_append] at he
          obtain ⟨n, hn1, hn2⟩ := iheff e he
          exact ⟨n, hn1, List.mem_cons_of_mem d hn2⟩
        · intro d' hd'
          rcases List.mem_cons.mp hd' with heq | hmem
          · subst heq
            refine ⟨?_, ?_, fun hrt => absurd hrt hready⟩
            · simp only [List.nil_append]
              constructor
              · intro h
                obtain ⟨n, hn1, hn2⟩ := iheff _ h
                exact absurd (Effect.taskStart.inj hn1) (fun hh => hdnotin (hh ▸ hn2))
              · intro h
                exact absurd h hready
            · intro _
              exact ihpres d' hdnotin
          · obtain ⟨hiff, hfalse, htrue⟩ := ihbundle d' hmem
            refine ⟨?_, hfalse, htrue⟩
            simp only [List.nil_append]
            exact hiff

/-! ## Additional `_on_completion` facts -/

theorem on_completion_cases (env : Env) (j : Job) :
    (∃ e, j._on_completion env = { err := e, job := j }) ∨
    (j._on_completion env
        = { err := none, job := { j with status := JobStatus.failed, snapshot := none },
            effects := lockedEmit env j.has_event_handler "job_failed" }) ∨
    ((∃ l, j.run_log = RunLogField.log l ∧ ∀ kv ∈ l.tasks, kv.2.success = some true) ∧
      j._on_completion env
        = { err := none,
            job := { j with
                     status := JobStatus.waiting, run_log := RunLogField.emptyDict,
                     snapshot := none },
            effects := lockedEmit env j.has_event_handler "job_complete" }) := by
  by_cases hst : j.status = .running
  · cases hlogcase : j.run_log with
    | null =>
        left
        exact ⟨some (.typeError "run_log is None"), by simp [Job._on_completion, hst, hlogcase]⟩
    | emptyDict =>
        left
        exact ⟨some (.keyError "tasks"), by simp [Job._on_completion, hst, hlogcase]⟩
    | log l =>
        by_cases hall : (l.tasks.all fun kv => kv.2.success.isSome) = true
        · by_cases hfail : (l.tasks.any fun kv => kv.2.success.getD false = false) = true
          · refine Or.inr (Or.inl ?_)
            rw [← hlogcase]
            exact on_completion_failure env j l hst hlogcase hall hfail
          · refine Or.inr (Or.inr ⟨⟨l, rfl, ?_⟩,
              on_completion_success env j l hst hlogcase hall (Bool.eq_false_iff.mpr hfail)⟩)
            intro kv hkv
            have h1 : kv.2.success.isSome = true := by
              have := List.all_eq_true.mp hall kv hkv
              simpa using this
            have h2 : ¬ (kv.2.success.getD false = false) := by
              intro hc
              exact hfail (List.any_eq_true.mpr ⟨kv, hkv, by simpa using hc⟩)
            obtain ⟨b, hb⟩ := Option.isSome_iff_exists.mp h1
            rw [hb]
            rw [hb] at h2
            cases b
            · exact absurd rfl h2
            · rfl
        · left
          exact ⟨none, on_completion_incomplete env j l hst hlogcase (Bool.eq_false_iff.mpr hall)⟩
  · left
    exact ⟨none, on_completion_not_running env j hst⟩

theorem on_completion_no_error (env : Env) (j : Job) (l : RunLog)
    (hlog : j.run_log = .log l) : (j._on_completion env).err = none := by
  by_cases hst : j.status = .running
  · by_cases hall : (l.tasks.all fun kv => kv.2.success.isSome) = true
    · by_cases hfail : (l.tasks.any fun kv => kv.2.success.getD false = false) = true
      · rw [on_completion_failure env j l hst hlog hall hfail]
      · rw [on_completion_success env j l hst hlog hall (Bool.eq_false_iff.mpr hfail)]
    · rw [on_completion_incomplete env j l hst hlog (Bool.eq_false_iff.mpr hall)]
  · rw [on_completion_not_running env j hst]

theorem on_completion_balanced (env : Env) (j : Job) :
    (j._on_completion env).effects.count Effect.lockRelease
      = (j._on_completion env).effects.count Effect.lockAcquire := by
  rcases on_completion_cases env j with ⟨e, hc⟩ | hc | ⟨_, hc⟩ <;> rw [hc]
  · rfl
  · exact lockedEmit_balanced env _ _
  · exact lockedEmit_balanced env _ _

theorem on_completion_no_taskStart (env : Env) (j : Job) (n : String) :
    Effect.taskStart n ∉ (j._on_completion env).effects := by
  rcases on_completion_cases env j with ⟨e, hc⟩ | hc | ⟨_, hc⟩ <;> rw [hc]
  · simp
  · intro h
    rcases lockedEmit_shape _ _ _ _ h with h1 | h1 | h1 | h1 <;> simp at h1
  · intro h
    rcases lockedEmit_shape _ _ _ _ h with h1 | h1 | h1 | h1 <;> simp at h1

theorem on_completion_no_task_failed_emit (env : Env) (j : Job) (b : Bool) :
    Effect.emit "task_failed" b ∉ (j._on_completion env).effects := by
  rcases on_completion_cases env j with ⟨e, hc⟩ | hc | ⟨_, hc⟩ <;> rw [hc]
  · simp
  · intro h
    rcases lockedEmit_shape _ _ _ _ h with h1 | h1 | h1 | h1 <;> simp at h1
  · intro h
    rcases lockedEmit_shape _ _ _ _ h with h1 | h1 | h1 | h1 <;> simp at h1

/-- Reduction of a well-formed `_complete_task` (run log present,
snapshot present, the completing task a node of the snapshot, all its
downstream nodes and the task itself registered) down to its stages:
payload write (`completeMid`), propagation, locked commit, conditional
locked `task_failed` emission, completion evaluation. -/
theorem complete_reduction (env : Env) (j : Job) (l : RunLog) (s : Graph)
    (tn : String) (p : LogEntry) (ds : List String)
    (hlog : j.run_log = .log l) (hsnap : j.snapshot = some s)
    (hds : alookup s tn = some ds)
    (htasks : ∀ d ∈ ds, (alookup j.tasks d).isSome = true)
    (htn : (alookup j.tasks tn).isSome = true) :
    j._complete_task env tn p =
      (if p.success = some false then
        { err := (((completeMid j l tn p).propagate env ds).2.1._on_completion env).err,
          job := (((completeMid j l tn p).propagate env ds).2.1._on_completion env).job,
          effects := ((completeMid j l tn p).propagate env ds).2.2 ++ lockedCommit env
            ++ lockedEmit env ((completeMid j l tn p).propagate env ds).2.1.has_event_handler
                 "task_failed"
            ++ (((completeMid j l tn p).propagate env ds).2.1._on_completion env).effects }
      else
        { err := (((completeMid j l tn p).propagate env ds).2.1._on_completion env).err,
          job := (((completeMid j l tn p).propagate env ds).2.1._on_completion env).job,
          effects := ((completeMid j l tn p).propagate env ds).2.2 ++ lockedCommit env
            ++ (((completeMid j l tn p).propagate env ds).2.1._on_completion env).effects }) := by
  obtain ⟨pe, peff, pst, psnap, pgr, phand, psome, l', hl', hpres⟩ :=
    propagate_ok env s ds (completeMid j l tn p) { l with tasks := aset l.tasks tn p }
      rfl hsnap htasks
  have htn2 : (alookup ((completeMid j l tn p).propagate env ds).2.1.tasks tn).isSome = true := by
    rw [psome tn]
    exact htn
  obtain ⟨t2, ht2⟩ := Option.isSome_iff_exists.mp htn2
  simp only [Job._complete_task, hlog]
  have hgetd : (completeMid j l tn p).snapshot.getD (completeMid j l tn p).graph = s := by
    show j.snapshot.getD j.graph = s
    rw [hsnap]
    rfl
  rw [show downstreamOf ((completeMid j l tn p).snapshot.getD (completeMid j l tn p).graph) tn
        = some ds from by rw [hgetd]; exact hds]
  simp only [pe, ht2]

/-! ## Claim C8: commit, task_failed emission, swallowed errors, lock discipline -/

/-- Claim C8: during completion handling the run log is committed, and a
`task_failed` event is emitted if and only if the completion payload
carries an explicit `success = false`; any error raised while committing
or emitting is caught and swallowed (no error escapes `_complete_task`
for any backend/event-sink fault state), and the backend lock is
released exactly as often as it is acquired, on every path including the
fault paths. -/
theorem complete_lock_discipline (env : Env) (j : Job) (l : RunLog) (s : Graph)
    (tn : String) (p : LogEntry) (ds : List String)
    (hlog : j.run_log = .log l) (hsnap : j.snapshot = some s)
    (hds : alookup s tn = some ds)
    (htasks : ∀ d ∈ ds, (alookup j.tasks d).isSome = true)
    (htn : (alookup j.tasks tn).isSome = true)
    (hhandler : j.has_event_handler = true) :
    (j._complete_task env tn p).err = none ∧
    (∃ b, Effect.commitLog b ∈ (j._complete_task env tn p).effects) ∧
    ((∃ b, Effect.emit "task_failed" b ∈ (j._complete_task env tn p).effects)
        ↔ p.success = some false) ∧
    (j._complete_task env tn p).effects.count Effect.lockRelease
      = (j._complete_task env tn p).effects.count Effect.lockAcquire := by
  rw [complete_reduction env j l s tn p ds hlog hsnap hds htasks htn]
  obtain ⟨pe, peff, pst, psnap, pgr, phand, psome, l', hl', hpres⟩ :=
    propagate_ok env s ds (completeMid j l tn p) { l with tasks := aset l.tasks tn p }
      rfl hsnap htasks
  have herr := on_completion_no_error env ((completeMid j l tn p).propagate env ds).2.1 l' hl'
  have hbal := on_completion_balanced env ((completeMid j l tn p).propagate env ds).2.1
  have hhand2 : ((completeMid j l tn p).propagate env ds).2.1.has_event_handler = true := by
    rw [phand]
    exact hhandler
  have hAcq0 : ((completeMid j l tn p).propagate env ds).2.2.count Effect.lockAcquire = 0 :=
    List.count_eq_zero.mpr (fun hmem => by
      obtain ⟨n, hn, _⟩ := peff _ hmem
      simp at hn)
  have hRel0 : ((completeMid j l tn p).propagate env ds).2.2.count Effect.lockRelease = 0 :=
    List.count_eq_zero.mpr (fun hmem => by
      obtain ⟨n, hn, _⟩ := peff _ hmem
      simp at hn)
  have hcommitmem : ∃ b, Effect.commitLog b ∈ lockedCommit env := by
    rcases lockedCommit_cases env with hc | hc <;> rw [hc]
    · exact ⟨true, by simp⟩
    · exact ⟨false, by simp⟩
  by_cases hp : p.success = some false
  · rw [if_pos hp]
    refine ⟨herr, ?_, ⟨fun _ => hp, fun _ => ?_⟩, ?_⟩
    · obtain ⟨b, hb⟩ := hcommitmem
      exact ⟨b, by simp only [List.mem_append]; exact Or.inl (Or.inl (Or.inr hb))⟩
    · obtain ⟨b, hb⟩ := lockedEmit_mem_emit env "task_failed"
      rw [← hhand2] at hb
      exact ⟨b, by simp only [List.mem_append]; exact Or.inl (Or.inr hb)⟩
    · simp only [List.count_append]
      rw [hAcq0, hRel0, lockedCommit_balanced env, lockedEmit_balanced env _ _, hbal]
  · rw [if_neg hp]
    refine ⟨herr, ?_, ⟨fun hex => ?_, fun hpf => absurd hpf hp⟩, ?_⟩
    · obtain ⟨b, hb⟩ := hcommitmem
      exact ⟨b, by simp only [List.mem_append]; exact Or.inl (Or.inr hb)⟩
    · exfalso
      obtain ⟨b, hb⟩ := hex
      rcases List.mem_append.mp hb with hb1 | hb4
      · rcases List.mem_append.mp hb1 with hb2 | hb3
        · obtain ⟨n, hn, _⟩ := peff _ hb2
          simp at hn
        · rcases lockedCommit_shape env _ hb3 with h1 | h1 | h1 | h1 <;> simp at h1
      · exact on_completion_no_task_failed_emit env _ b hb4
    · simp only [List.count_append]
      rw [hAcq0, hRel0, lockedCommit_balanced env, hbal]

def c8log : RunLog :=
  { tasks := [("a", { start_time := some 0, command := some "ca" }),
              ("b", { success := some true })] }

def c8job : Job :=
  { status := .running, graph := [("a", ["b"]), ("b", [])],
    tasks := [("a", { name := "a", command := "ca", started_at := some 1 }),
              ("b", { name := "b", command := "cb" })],
    run_log := .log c8log, snapshot := some [("a", ["b"]), ("b", [])] }

def c8env : Env := { commit_log_fails := true, emit_fails := true }

def c8payload : LogEntry := { success := some false, command := some "ca" }

theorem complete_lock_discipline_witness :
    c8job.run_log = .log c8log ∧ c8job.snapshot = some [("a", ["b"]), ("b", [])] ∧
    alookup [("a", ["b"]), ("b", [])] "a" = some ["b"] ∧
    (∀ d ∈ ["b"], (alookup c8job.tasks d).isSome = true) ∧
    (alookup c8job.tasks "a").isSome = true ∧
    c8job.has_event_handler = true ∧
    ((c8job._complete_task c8env "a" c8payload).err = none ∧
     (∃ b, Effect.commitLog b ∈ (c8job._complete_task c8env "a" c8payload).effects) ∧
     ((∃ b, Effect.emit "task_failed" b ∈ (c8job._complete_task c8env "a" c8payload).effects)
        ↔ c8payload.success = some false) ∧
     (c8job._complete_task c8env "a" c8payload).effects.count Effect.lockRelease
       = (c8job._complete_task c8env "a" c8payload).effects.count Effect.lockAcquire) :=
  ⟨rfl, rfl, by decide, by decide, by decide, rfl,
    complete_lock_discipline c8env c8job c8log [("a", ["b"]), ("b", [])] "a" c8payload ["b"]
      rfl rfl (by decide) (by decide) (by decide) rfl⟩

/-! ## Claim C7: completion replaces rather than merges -/

def c7log : RunLog := { tasks := [("a", { start_time := some 0, command := some "ca" })] }

def c7job : Job :=
  { status := .running, graph := [("a", [])],
    tasks := [("a", { name := "a", command := "ca", started_at := some 1 })],
    run_log := .log c7log, snapshot := some [("a", [])] }

def c7payload : LogEntry := { success := some true }

/-- Claim C7 counterexample: when the completing task concludes a fully
successful run, `_on_completion` clears the whole run log, so after
completion the task has no run-log entry at all — the claim that the
entry "equals exactly the supplied payload" after every completion is
false. -/
theorem complete_replaces_entry_cex :
    (c7job._complete_task {} "a" c7payload).err = none ∧
    entryOf (c7job._complete_task {} "a" c7payload).job "a" = none ∧
    entryOf (c7job._complete_task {} "a" c7payload).job "a" ≠ some c7payload := by decide

/-- Claim C7 as amended: the completion entry point replaces rather than
merges: for a well-formed completion (run log and snapshot present, the
completing task a node of the snapshot with registered downstream
tasks, and not its own downstream node), the payload is written as the
task's entire run-log entry, and whenever the run log survives the
completion (that is, the completion did not conclude a fully successful
run, which clears the whole log), the entry equals exactly the supplied
payload, so any seed fields (start time, command) absent from the
payload are dropped. -/
theorem complete_replaces_entry (env : Env) (j : Job) (l : RunLog) (s : Graph)
    (tn : String) (p : LogEntry) (ds : List String)
    (hlog : j.run_log = .log l) (hsnap : j.snapshot = some s)
    (hds : alookup s tn = some ds) (hself : tn ∉ ds)
    (htasks : ∀ d ∈ ds, (alookup j.tasks d).isSome = true)
    (htn : (alookup j.tasks tn).isSome = true) :
    ∀ l2, (j._complete_task env tn p).job.run_log = RunLogField.log l2 →
      alookup l2.tasks tn = some p := by
  rw [complete_reduction env j l s tn p ds hlog hsnap hds htasks htn]
  obtain ⟨pe, peff, pst, psnap, pgr, phand, psome, l', hl', hpres⟩ :=
    propagate_ok env s ds (completeMid j l tn p) { l with tasks := aset l.tasks tn p }
      rfl hsnap htasks
  have hentry : alookup l'.tasks tn = some p := by
    rw [hpres tn hself]
    exact alookup_aset_self _ _ _
  have main : ∀ l2,
      ((((completeMid j l tn p).propagate env ds).2.1._on_completion env)).job.run_log
        = RunLogField.log l2 →
      alookup l2.tasks tn = some p := by
    intro l2 h2
    rcases on_completion_cases env ((completeMid j l tn p).propagate env ds).2.1 with
      ⟨e, hc⟩ | hc | ⟨_, hc⟩
    · rw [hc] at h2
      have heq := hl'.symm.trans h2
      injection heq with heq2
      rw [← heq2]
      exact hentry
    · rw [hc] at h2
      simp only at h2
      have heq := hl'.symm.trans h2
      injection heq with heq2
      rw [← heq2]
      exact hentry
    · rw [hc] at h2
      simp only at h2
      exact absurd h2 (by simp)
  intro l2 h2
  by_cases hp : p.success = some false
  · rw [if_pos hp] at h2
    exact main l2 h2
  · rw [if_neg hp] at h2
    exact main l2 h2

def c7flog : RunLog := { tasks := [("a", { start_time := some 0, command := some "ca" })] }

def c7fjob : Job :=
  { status := .running, graph := [("a", [])],
    tasks := [("a", { name := "a", command := "ca", started_at := some 1 })],
    run_log := .log c7flog, snapshot := some [("a", [])] }

def c7fpayload : LogEntry := { success := some false }

theorem complete_replaces_entry_witness :
    c7fjob.run_log = .log c7flog ∧ c7fjob.snapshot = some [("a", [])] ∧
    alookup ([("a", [])] : Graph) "a" = some ([] : List String) ∧ "a" ∉ ([] : List String) ∧
    (∀ d ∈ ([] : List String), (alookup c7fjob.tasks d).isSome = true) ∧
    (alookup c7fjob.tasks "a").isSome = true ∧
    (∀ l2, (c7fjob._complete_task {} "a" c7fpayload).job.run_log = RunLogField.log l2 →
      alookup l2.tasks "a" = some c7fpayload) :=
  ⟨rfl, rfl, by decide, by decide, by decide, by decide,
    complete_replaces_entry {} c7fjob c7flog [("a", [])] "a" c7fpayload []
      rfl rfl (by decide) (by decide) (by decide) (by decide)⟩

/-! ## Claim C1: strict AND-join readiness propagation with fail-skip -/

/-- Claim C1: when a task completes, every direct downstream node of it
per the active snapshot is started (and given a fresh run-log seed
entry) if and only if every one of its direct upstream nodes per the
snapshot has a run-log entry whose success field is exactly true; if
any upstream entry is missing or not successful, the downstream task is
not started and its run-log entry is neither created nor modified.
Readiness is evaluated against the run log as of the payload write
(`aset l.tasks tn p`). -/
theorem readiness_propagation (env : Env) (j : Job) (l : RunLog) (s : Graph)
    (tn : String) (p : LogEntry) (ds : List String)
    (hlog : j.run_log = .log l) (hsnap : j.snapshot = some s)
    (hds : alookup s tn = some ds) (hnodup : ds.Nodup) (hself : tn ∉ ds)
    (htasks : ∀ d ∈ ds, (alookup j.tasks d).isSome = true)
    (htn : (alookup j.tasks tn).isSome = true)
    (hnotsucc : ∀ d ∈ ds, succTrue (aset l.tasks tn p) d = false) :
    ∀ d ∈ ds,
      ((Effect.taskStart d ∈ (j._complete_task env tn p).effects)
          ↔ ready s (aset l.tasks tn p) d = true) ∧
      (ready s (aset l.tasks tn p) d = true →
        ∃ t, alookup j.tasks d = some t ∧
          entryOf (j._complete_task env tn p).job d = some (seedEntry env t)) ∧
      (ready s (aset l.tasks tn p) d = false →
        entryOf (j._complete_task env tn p).job d = alookup l.tasks d) := by
  rw [complete_reduction env j l s tn p ds hlog hsnap hds htasks htn]
  obtain ⟨l', hl', hsucc, hpres, heff2, hbundle⟩ :=
    propagate_ready env s ds (completeMid j l tn p) { l with tasks := aset l.tasks tn p }
      rfl hsnap htasks hnotsucc hnodup
  intro d hd
  have hdne : d ≠ tn := fun h => hself (h ▸ hd)
  obtain ⟨hiff, hfalse, htrue⟩ := hbundle d hd
  have hO := on_completion_no_taskStart env ((completeMid j l tn p).propagate env ds).2.1 d
  have hC : Effect.taskStart d ∉ lockedCommit env := by
    intro h
    rcases lockedCommit_shape env _ h with h1 | h1 | h1 | h1 <;> simp at h1
  have hE : ∀ hh ev, Effect.taskStart d ∉ lockedEmit env hh ev := by
    intro hh ev h
    rcases lockedEmit_shape env hh ev _ h with h1 | h1 | h1 | h1 <;> simp at h1
  have hjobent :
      (ready s (aset l.tasks tn p) d = true →
        ∃ t, alookup j.tasks d = some t ∧
          entryOf ((((completeMid j l tn p).propagate env ds).2.1._on_completion env)).job d
            = some (seedEntry env t)) ∧
      (ready s (aset l.tasks tn p) d = false →
        entryOf ((((completeMid j l tn p).propagate env ds).2.1._on_completion env)).job d
          = alookup l.tasks d) := by
    rcases on_completion_cases env ((completeMid j l tn p).propagate env ds).2.1 with
      ⟨e, hc⟩ | hc | ⟨⟨lx, hlx, hallx⟩, hc⟩
    · rw [hc]
      constructor
      · intro hrt
        obtain ⟨t, ht, hentry⟩ := htrue hrt
        exact ⟨t, ht, by simp only [entryOf, hl', hentry]⟩
      · intro hrf
        simp only [entryOf, hl']
        rw [hfalse hrf]
        exact alookup_aset_ne _ _ _ _ hdne
    · rw [hc]
      constructor
      · intro hrt
        obtain ⟨t, ht, hentry⟩ := htrue hrt
        exact ⟨t, ht, by simp only [entryOf, hl', hentry]⟩
      · intro hrf
        simp only [entryOf, hl']
        rw [hfalse hrf]
        exact alookup_aset_ne _ _ _ _ hdne
    · rw [hl'] at hlx
      injection hlx with hlxl
      rw [← hlxl] at hallx
      rw [hc]
      constructor
      · intro hrt
        exfalso
        obtain ⟨t, ht, hentry⟩ := htrue hrt
        have hmem := alookup_mem _ _ _ hentry
        have := hallx _ hmem
        simp [seedEntry] at this
      · intro hrf
        simp only [entryOf]
        cases hcase : alookup l.tasks d with
        | none => rfl
        | some e =>
            exfalso
            have h1 : alookup ({ l with tasks := aset l.tasks tn p } : RunLog).tasks d
                = some e := by
              show alookup (aset l.tasks tn p) d = some e
              rw [alookup_aset_ne _ _ _ _ hdne]
              exact hcase
            have h2 : alookup l'.tasks d = some e := by
              rw [hfalse hrf]
              exact h1
            have h3 := hallx _ (alookup_mem _ _ _ h2)
            simp only at h3
            have h4 : succTrue l'.tasks d = true := by
              rw [succTrue, h2]
              simp [h3]
            have h5 : succTrue l'.tasks d = false := by
              rw [hsucc d]
              exact hnotsucc d hd
            rw [h4] at h5
            exact Bool.noConfusion h5
  by_cases hp : p.success = some false
  · rw [if_pos hp]
    refine ⟨?_, hjobent.1, hjobent.2⟩
    rw [← hiff]
    simp only [List.mem_append]
    constructor
    · rintro (((h1 | h2) | h3) | h4)
      · exact h1
      · exact absurd h2 hC
      · exact absurd h3 (hE _ _)
      · exact absurd h4 hO
    · exact fun h1 => Or.inl (Or.inl (Or.inl h1))
  · rw [if_neg hp]
    refine ⟨?_, hjobent.1, hjobent.2⟩
    rw [← hiff]
    simp only [List.mem_append]
    constructor
    · rintro ((h1 | h2) | h4)
      · exact h1
      · exact absurd h2 hC
      · exact absurd h4 hO
    · exact fun h1 => Or.inl (Or.inl h1)

def c1g : Graph := [("a", ["b", "c"]), ("x", ["c"]), ("b", []), ("c", [])]

def c1log : RunLog := { tasks := [("a", { start_time := some 0, command := some "ca" })] }

def c1job : Job :=
  { status := .running, graph := c1g,
    tasks := [("a", { name := "a", command := "ca", started_at := some 1 }),
              ("x", { name := "x", command := "cx" }),
              ("b", { name := "b", command := "cb" }),
              ("c", { name := "c", command := "cc" })],
    run_log := .log c1log, snapshot := some c1g }

def c1payload : LogEntry := { success := some true }

theorem readiness_propagation_witness :
    c1job.run_log = .log c1log ∧ c1job.snapshot = some c1g ∧
    alookup c1g "a" = some ["b", "c"] ∧ (["b", "c"] : List String).Nodup ∧
    "a" ∉ (["b", "c"] : List String) ∧
    (∀ d ∈ (["b", "c"] : List String), (alookup c1job.tasks d).isSome = true) ∧
    (alookup c1job.tasks "a").isSome = true ∧
    (∀ d ∈ (["b", "c"] : List String), succTrue (aset c1log.tasks "a" c1payload) d = false) ∧
    (∀ d ∈ (["b", "c"] : List String),
      ((Effect.taskStart d ∈ (c1job._complete_task {} "a" c1payload).effects)
          ↔ ready c1g (aset c1log.tasks "a" c1payload) d = true) ∧
      (ready c1g (aset c1log.tasks "a" c1payload) d = true →
        ∃ t, alookup c1job.tasks d = some t ∧
          entryOf (c1job._complete_task {} "a" c1payload).job d = some (seedEntry {} t)) ∧
      (ready c1g (aset c1log.tasks "a" c1payload) d = false →
        entryOf (c1job._complete_task {} "a" c1payload).job d = alookup c1log.tasks d)) :=
  ⟨rfl, rfl, by decide, by decide, by decide, by decide, by decide, by decide,
    readiness_propagation {} c1job c1log c1g "a" c1payload ["b", "c"]
      rfl rfl (by decide) (by decide) (by decide) (by decide) (by decide) (by decide)⟩

end Dagobah
